import Mathlib

/-!
# Shallow embedding of the ShoeTracker domain store (`src/storage.js`)

The store keeps three collections in browser `localStorage`:
shoes, workouts and a shoe-order list.  A `localStorage` key is either
absent or holds a serialized list; all operations follow the
read-whole-collection / mutate / write-whole-collection pattern of the
source.

We model a well-formed storage state as three `Option (List _)` cells
(`none` = key absent).  `JSON.parse` of a well-formed serialized list is
the identity at this level of abstraction.  Nondeterministic environment
inputs of the source (`generateId()`, `new Date().toISOString()`) are
passed to operations as explicit arguments.  JS numbers used for `miles`
are modelled as rationals; `parseFloat` applied to a number is the
identity.  A separate raw model (`Cell`, `RawState`, below) additionally
distinguishes a malformed serialized value, for the claims about
corrupted persistence, where `JSON.parse` throws.
-/

/-- A shoe record, as created by `addShoe` (`storage.js:55-61`). -/
structure Shoe where
  id : String
  name : String
  retired : Bool
  imageData : Option String
  createdAt : String
deriving Repr, DecidableEq

/-- A workout record, as created by `addWorkout` (`storage.js:209-215`).
`updatedAt` is absent on creation and set by `updateWorkout`. -/
structure Workout where
  id : String
  shoeId : String
  miles : Rat
  date : String
  createdAt : String
  updatedAt : Option String
deriving Repr, DecidableEq

/-- The three `localStorage` collections of `Storage.KEYS`
(`storage.js:8-12`); `none` models an absent key. -/
structure StorageState where
  shoes : Option (List Shoe)
  workouts : Option (List Workout)
  shoeOrder : Option (List String)
deriving Repr, DecidableEq

namespace Storage

/-- `getShoes` (`storage.js:18-21`): absent key yields the empty list. -/
def getShoes (st : StorageState) : List Shoe :=
  st.shoes.getD []

/-- `saveShoes` (`storage.js:27-29`). -/
def saveShoes (st : StorageState) (shoes : List Shoe) : StorageState :=
  { st with shoes := some shoes }

/-- `getShoeById` (`storage.js:36-39`). -/
def getShoeById (st : StorageState) (id : String) : Option Shoe :=
  (getShoes st).find? (fun shoe => shoe.id == id)

/-- `getWorkouts` (`storage.js:169-172`). -/
def getWorkouts (st : StorageState) : List Workout :=
  st.workouts.getD []

/-- `saveWorkouts` (`storage.js:178-180`). -/
def saveWorkouts (st : StorageState) (workouts : List Workout) : StorageState :=
  { st with workouts := some workouts }

/-- `getShoeOrder` (`storage.js:117-126`): the stored order verbatim when
present, otherwise lazily derived from the current shoes. -/
def getShoeOrder (st : StorageState) : List String :=
  match st.shoeOrder with
  | some order => order
  | none => (getShoes st).map (fun s => s.id)

/-- `saveShoeOrder` (`storage.js:132-134`), the spec's `setOrder`. -/
def saveShoeOrder (st : StorageState) (order : List String) : StorageState :=
  { st with shoeOrder := some order }

/-- JS `String.prototype.toLowerCase()`, character by character. -/
def jsToLower (s : String) : String :=
  ⟨s.data.map Char.toLower⟩

/-- JS `String.prototype.trim()`: strip whitespace from both ends. -/
def jsTrim (s : String) : String :=
  ⟨((s.data.dropWhile Char.isWhitespace).reverse.dropWhile Char.isWhitespace).reverse⟩

/-- `addShoe` (`storage.js:47-72`).  The duplicate check compares the
*untrimmed* argument `name` against stored names (`storage.js:51`); the
stored record carries `name.trim()`.  The `throw` is an `Except.error`.
Note the source saves the shoes *before* reading the order
(`storage.js:64,67`), which matters when no order is stored yet. -/
def addShoe (st : StorageState) (name : String) (imageData : Option String)
    (newId : String) (now : String) : Except String (Shoe × StorageState) :=
  let shoes := getShoes st
  if shoes.any (fun shoe => jsToLower shoe.name == jsToLower name) then
    .error "A shoe with this name already exists"
  else
    let newShoe : Shoe :=
      { id := newId, name := jsTrim name, retired := false
        imageData := imageData, createdAt := now }
    let st1 := saveShoes st (shoes ++ [newShoe])
    let order := getShoeOrder st1
    let st2 := saveShoeOrder st1 (order ++ [newShoe.id])
    .ok (newShoe, st2)

/-- Helper for `retireShoe`: the source mutates the *first* shoe found
with the given id (`storage.js:80-83`). -/
def setRetiredFirst : List Shoe → String → List Shoe
  | [], _ => []
  | s :: rest, id =>
    if s.id == id then { s with retired := true } :: rest
    else s :: setRetiredFirst rest id

/-- `retireShoe` (`storage.js:78-86`): sets `retired := true` on the first
shoe with the given id and saves; no write when the id is absent. -/
def retireShoe (st : StorageState) (id : String) : StorageState :=
  let shoes := getShoes st
  if shoes.any (fun s => s.id == id) then
    saveShoes st (setRetiredFirst shoes id)
  else st

/-- `deleteShoe` (`storage.js:93-111`): refuses (returning `false`, with
no write at all) when some workout references the id; otherwise filters
the shoe out of the shoes collection, then filters the id out of the
order, and returns `true`.  As in `addShoe`, shoes are saved before the
order is read. -/
def deleteShoe (st : StorageState) (id : String) : Bool × StorageState :=
  let workouts := getWorkouts st
  if workouts.any (fun w => w.shoeId == id) then
    (false, st)
  else
    let st1 := saveShoes st ((getShoes st).filter (fun s => s.id != id))
    let newOrder := (getShoeOrder st1).filter (fun shoeId => shoeId != id)
    (true, saveShoeOrder st1 newOrder)

/-- The JS object `shoeMap` of `getShoesOrdered` (`storage.js:145-148`):
a string-keyed map built by insertion, where re-assigning an existing key
replaces the value in place and `Object.values` returns values in key
insertion order.  We represent it as the list of its values. -/
def insertShoe (m : List Shoe) (s : Shoe) : List Shoe :=
  if m.any (fun t => t.id == s.id) then
    m.map (fun t => if t.id == s.id then s else t)
  else m ++ [s]

/-- `shoes.forEach(shoe => shoeMap[shoe.id] = shoe)` (`storage.js:146-148`). -/
def mkShoeMap (shoes : List Shoe) : List Shoe :=
  shoes.foldl insertShoe []

/-- The `order.forEach` loop of `getShoesOrdered` (`storage.js:152-157`):
walk the order; each id still present in the map is pushed to the result
and deleted from the map.  Returns the pushed list and the final map. -/
def pickOrdered : List String → List Shoe → List Shoe × List Shoe
  | [], m => ([], m)
  | id :: rest, m =>
    match m.find? (fun s => s.id == id) with
    | some s =>
      let p := pickOrdered rest (m.filter (fun t => t.id != id))
      (s :: p.1, p.2)
    | none => pickOrdered rest m

/-- `getShoesOrdered` (`storage.js:140-163`): ordered picks first, then
the remaining map values (`storage.js:160`). -/
def getShoesOrdered (st : StorageState) : List Shoe :=
  let p := pickOrdered (getShoeOrder st) (mkShoeMap (getShoes st))
  p.1 ++ p.2

/-- `getWorkoutById` (`storage.js:187-190`). -/
def getWorkoutById (st : StorageState) (id : String) : Option Workout :=
  (getWorkouts st).find? (fun workout => workout.id == id)

/-- `addWorkout` (`storage.js:199-224`): the duplicate flag is computed
from the collection *before* the push, and the new workout is pushed and
saved regardless.  Returns `((workout, isDuplicate), newState)`. -/
def addWorkout (st : StorageState) (shoeId : String) (miles : Rat)
    (date : String) (newId : String) (now : String) :
    (Workout × Bool) × StorageState :=
  let workouts := getWorkouts st
  let isDuplicate := workouts.any (fun w =>
    w.shoeId == shoeId && w.date == date && w.miles == miles)
  let newWorkout : Workout :=
    { id := newId, shoeId := shoeId, miles := miles, date := date
      createdAt := now, updatedAt := none }
  ((newWorkout, isDuplicate), saveWorkouts st (workouts ++ [newWorkout]))

/-- Helper for `updateWorkout`: overwrite the three mutable fields and
`updatedAt` on the *first* workout with the given id (`storage.js:235-241`). -/
def updateFirstWorkout : List Workout → String → String → Rat → String → String → List Workout
  | [], _, _, _, _, _ => []
  | w :: rest, id, shoeId, miles, date, now =>
    if w.id == id then
      { w with shoeId := shoeId, miles := miles, date := date
               updatedAt := some now } :: rest
    else w :: updateFirstWorkout rest id shoeId miles date now

/-- `updateWorkout` (`storage.js:233-244`): writes only when a workout
with the id exists; otherwise nothing happens (and nothing throws). -/
def updateWorkout (st : StorageState) (id : String) (shoeId : String)
    (miles : Rat) (date : String) (now : String) : StorageState :=
  let workouts := getWorkouts st
  if workouts.any (fun w => w.id == id) then
    saveWorkouts st (updateFirstWorkout workouts id shoeId miles date now)
  else st

/-- `deleteWorkout` (`storage.js:250-254`). -/
def deleteWorkout (st : StorageState) (id : String) : StorageState :=
  saveWorkouts st ((getWorkouts st).filter (fun w => w.id != id))

/-- `getWorkoutsByShoe` (`storage.js:261-264`). -/
def getWorkoutsByShoe (st : StorageState) (shoeId : String) : List Workout :=
  (getWorkouts st).filter (fun w => w.shoeId == shoeId)

/-- `getTotalMiles` (`storage.js:271-274`): a left fold of `+` over the
workouts of the shoe, starting from `0`. -/
def getTotalMiles (st : StorageState) (shoeId : String) : Rat :=
  (getWorkoutsByShoe st shoeId).foldl (fun total workout => total + workout.miles) 0

/-- `clearAll` (`storage.js:287-291`): removes all three keys. -/
def clearAll (_st : StorageState) : StorageState :=
  { shoes := none, workouts := none, shoeOrder := none }

/-- One public mutating operation of the store, with the environment
inputs (`generateId()`, `Date` timestamps) as constructor arguments. -/
inductive Op where
  | addShoe (name : String) (imageData : Option String) (newId now : String)
  | retireShoe (id : String)
  | deleteShoe (id : String)
  | addWorkout (shoeId : String) (miles : Rat) (date newId now : String)
  | updateWorkout (id shoeId : String) (miles : Rat) (date now : String)
  | deleteWorkout (id : String)
  | setOrder (order : List String)
  | clearAll
deriving Repr, DecidableEq

/-- The state transition of one operation (return values discarded; an
`addShoe` that throws leaves the state unchanged, since in the source the
throw happens before any write). -/
def apply (op : Op) (st : StorageState) : StorageState :=
  match op with
  | .addShoe name imageData newId now =>
    match addShoe st name imageData newId now with
    | .ok r => r.2
    | .error _ => st
  | .retireShoe id => retireShoe st id
  | .deleteShoe id => (deleteShoe st id).2
  | .addWorkout shoeId miles date newId now =>
    (addWorkout st shoeId miles date newId now).2
  | .updateWorkout id shoeId miles date now =>
    updateWorkout st id shoeId miles date now
  | .deleteWorkout id => deleteWorkout st id
  | .setOrder order => saveShoeOrder st order
  | .clearAll => clearAll st

end Storage

/-! ## Raw model of persistence, for claims about corrupted storage

`localStorage.getItem` returns `null` or a string.  The reads of the
source are `data ? JSON.parse(data) : []` with no `try`/`catch`
(`storage.js:18-21`, `117-126`, `169-172`): a malformed stored string
makes `JSON.parse` throw a `SyntaxError` that propagates to the caller.
A `Cell` is one stored key: absent, a well-formed serialization of a
value, or malformed. -/

/-- One raw `localStorage` cell. -/
inductive Cell (α : Type) where
  | absent : Cell α
  | stored (value : α) : Cell α
  | malformed : Cell α
deriving Repr, DecidableEq

/-- The three raw cells of the store. -/
structure RawState where
  shoes : Cell (List Shoe)
  workouts : Cell (List Workout)
  shoeOrder : Cell (List String)
deriving Repr, DecidableEq

namespace Storage

/-- `getShoes` on raw storage (`storage.js:18-21`): `JSON.parse` of a
malformed string throws. -/
def rawGetShoes (st : RawState) : Except String (List Shoe) :=
  match st.shoes with
  | .absent => .ok []
  | .stored shoes => .ok shoes
  | .malformed => .error "SyntaxError: Unexpected token in JSON"

/-- `getWorkouts` on raw storage (`storage.js:169-172`). -/
def rawGetWorkouts (st : RawState) : Except String (List Workout) :=
  match st.workouts with
  | .absent => .ok []
  | .stored workouts => .ok workouts
  | .malformed => .error "SyntaxError: Unexpected token in JSON"

/-- `getShoeOrder` on raw storage (`storage.js:117-126`): a stored order
is parsed (throwing when malformed); an absent order falls back to
`getShoes`, whose own error propagates. -/
def rawGetShoeOrder (st : RawState) : Except String (List String) :=
  match st.shoeOrder with
  | .stored order => .ok order
  | .malformed => .error "SyntaxError: Unexpected token in JSON"
  | .absent =>
    match rawGetShoes st with
    | .ok shoes => .ok (shoes.map (fun s => s.id))
    | .error e => .error e

end Storage

/-! ## Concrete states used by the claim theorems -/

/-- Decidable equality of results carrying a thrown error, so that claim
theorems can be checked by evaluation. -/
instance {ε α : Type} [DecidableEq ε] [DecidableEq α] : DecidableEq (Except ε α) :=
  fun a b =>
    match a, b with
    | .ok x, .ok y =>
      if h : x = y then .isTrue (by rw [h]) else .isFalse (by simp [h])
    | .error e, .error f =>
      if h : e = f then .isTrue (by rw [h]) else .isFalse (by simp [h])
    | .ok _, .error _ => .isFalse (by simp)
    | .error _, .ok _ => .isFalse (by simp)

/-- Fresh storage: no key present. -/
def emptyState : StorageState := ⟨none, none, none⟩

/-- The state after `addShoe "Nike"` on fresh storage (ids and timestamps
supplied by the environment as `"id1"`, `"t1"`). -/
def nikeState : StorageState :=
  ⟨some [⟨"id1", "Nike", false, none, "t1"⟩], none, some ["id1", "id1"]⟩

/-- The state after additionally calling `addShoe " Nike"` on `nikeState`. -/
def nikeState2 : StorageState :=
  ⟨some [⟨"id1", "Nike", false, none, "t1"⟩, ⟨"id2", "Nike", false, none, "t2"⟩],
   none, some ["id1", "id1", "id2"]⟩

/-! ## Claims -/

/-- Claim C1 (code bug): the uniqueness invariant is violated on a
reachable state.  `addShoe` compares the *untrimmed* input against stored
names (`storage.js:51`) but persists the trimmed name (`storage.js:57`),
so from fresh storage `addShoe "Nike"` followed by `addShoe " Nike"`
succeeds instead of throwing the duplicate-name error, and leaves two
shoes whose names are equal ignoring case. -/
theorem addShoe_untrimmed_dup_check_breaks_uniqueness :
    Storage.addShoe emptyState "Nike" none "id1" "t1" =
      .ok (⟨"id1", "Nike", false, none, "t1"⟩, nikeState) ∧
    Storage.addShoe nikeState " Nike" none "id2" "t2" =
      .ok (⟨"id2", "Nike", false, none, "t2"⟩, nikeState2) ∧
    (Storage.getShoes nikeState2).map (fun s => Storage.jsToLower s.name) =
      ["nike", "nike"] :=
  ⟨rfl, rfl, rfl⟩

/-- Claim C2 (code bug): `getOrder` does not contain every current shoe
id exactly once.  `addShoe` saves the shoes (`storage.js:64`) *before*
reading the order (`storage.js:67`), so when no order is stored the lazy
derivation (`storage.js:124-125`) already contains the new id and the
subsequent push duplicates it: one `addShoe` on fresh storage yields an
order holding the new id twice. -/
theorem addShoe_from_empty_stores_duplicate_order_id :
    Storage.addShoe emptyState "Nike" none "id1" "t1" =
      .ok (⟨"id1", "Nike", false, none, "t1"⟩, nikeState) ∧
    Storage.getShoeOrder nikeState = ["id1", "id1"] ∧
    ¬ (Storage.getShoeOrder nikeState).Nodup :=
  ⟨rfl, rfl, by decide⟩

/-- Claim C5 (counterexample): a malformed serialized collection is not
treated as empty — the reads of `storage.js:18-21`, `169-172` and
`117-126` call `JSON.parse` with no `try`/`catch`, so the parse error
propagates to the caller. -/
theorem rawGetShoes_malformed_errors :
    Storage.rawGetShoes ⟨Cell.malformed, Cell.absent, Cell.absent⟩ =
      .error "SyntaxError: Unexpected token in JSON" ∧
    Storage.rawGetWorkouts ⟨Cell.absent, Cell.malformed, Cell.absent⟩ =
      .error "SyntaxError: Unexpected token in JSON" ∧
    Storage.rawGetShoeOrder ⟨Cell.absent, Cell.absent, Cell.malformed⟩ =
      .error "SyntaxError: Unexpected token in JSON" :=
  ⟨rfl, rfl, rfl⟩

/-- Claim C5 (amended): an *absent* collection reads as the empty list,
but a *malformed* collection makes every read of it propagate the
deserialization error instead of recovering. -/
theorem raw_reads_absent_empty_malformed_error :
    ∀ sh wk or,
      (Storage.rawGetShoes ⟨Cell.absent, wk, or⟩ = .ok [] ∧
       Storage.rawGetWorkouts ⟨sh, Cell.absent, or⟩ = .ok [] ∧
       Storage.rawGetShoeOrder ⟨Cell.absent, wk, Cell.absent⟩ = .ok []) ∧
      (∃ e, Storage.rawGetShoes ⟨Cell.malformed, wk, or⟩ = .error e) ∧
      (∃ e, Storage.rawGetWorkouts ⟨sh, Cell.malformed, or⟩ = .error e) ∧
      (∃ e, Storage.rawGetShoeOrder ⟨sh, wk, Cell.malformed⟩ = .error e) :=
  fun _ _ _ => ⟨⟨rfl, rfl, rfl⟩, ⟨_, rfl⟩, ⟨_, rfl⟩, ⟨_, rfl⟩⟩

/-- Claim C6 (counterexample): `addWorkout` performs no referential
check.  On a state with no shoes at all it persists a workout whose
`shoeId` references nothing and returns the ordinary success shape
(`isDuplicate = false`), indistinguishable from a valid insertion. -/
theorem addWorkout_nonexistent_shoe_silently_persists :
    Storage.getShoes emptyState = [] ∧
    (Storage.addWorkout emptyState "ghost" 3 "2024-01-01" "w1" "t1").1.2 = false ∧
    Storage.getWorkouts
        (Storage.addWorkout emptyState "ghost" 3 "2024-01-01" "w1" "t1").2 =
      [⟨"w1", "ghost", 3, "2024-01-01", "t1", none⟩] :=
  ⟨rfl, rfl, rfl⟩

/-- Claim C6 (amended): `addWorkout` never validates `shoeId` — its
return value and its effect on the workouts collection are entirely
independent of the shoes collection, and the new workout is persisted
whether or not the shoe exists. -/
theorem addWorkout_no_referential_check :
    ∀ (st : StorageState) (otherShoes : List Shoe) (shoeId : String)
      (miles : Rat) (date newId now : String),
      (Storage.addWorkout st shoeId miles date newId now).2.workouts =
        some (Storage.getWorkouts st ++
          [⟨newId, shoeId, miles, date, now, none⟩]) ∧
      (Storage.addWorkout st shoeId miles date newId now).1 =
        (Storage.addWorkout (Storage.saveShoes st otherShoes)
          shoeId miles date newId now).1 :=
  fun _ _ _ _ _ _ _ => ⟨rfl, rfl⟩

/-- Folding `+` over the miles of a list of workouts, from any starting
total, adds the sum of their miles (the shape of `reduce` in
`storage.js:273`). -/
theorem foldl_add_miles (l : List Workout) (a : Rat) :
    l.foldl (fun total workout => total + workout.miles) a =
      a + (l.map (fun w => w.miles)).sum := by
  induction l generalizing a with
  | nil => simp
  | cons w l ih => simp [ih (a + w.miles), add_assoc]

/-- Claim C4: `addWorkout` computes `isDuplicate` from the state before
insertion, persists the new workout regardless, and calling it twice with
identical arguments flags the second call, keeps both records, and adds
the miles twice to the shoe's total. -/
theorem addWorkout_duplicate_flag_advisory :
    ∀ (st : StorageState) (shoeId : String) (miles : Rat)
      (date id1 now1 id2 now2 : String),
      (Storage.addWorkout st shoeId miles date id1 now1).1.2 =
        (Storage.getWorkouts st).any (fun w =>
          w.shoeId == shoeId && w.date == date && w.miles == miles) ∧
      Storage.getWorkouts (Storage.addWorkout st shoeId miles date id1 now1).2 =
        Storage.getWorkouts st ++ [⟨id1, shoeId, miles, date, now1, none⟩] ∧
      (Storage.addWorkout
          (Storage.addWorkout st shoeId miles date id1 now1).2
          shoeId miles date id2 now2).1.2 = true ∧
      Storage.getWorkouts (Storage.addWorkout
          (Storage.addWorkout st shoeId miles date id1 now1).2
          shoeId miles date id2 now2).2 =
        Storage.getWorkouts st ++
          [⟨id1, shoeId, miles, date, now1, none⟩,
           ⟨id2, shoeId, miles, date, now2, none⟩] ∧
      Storage.getTotalMiles (Storage.addWorkout
          (Storage.addWorkout st shoeId miles date id1 now1).2
          shoeId miles date id2 now2).2 shoeId =
        Storage.getTotalMiles st shoeId + miles + miles := by
  intro st shoeId miles date id1 now1 id2 now2
  refine ⟨rfl, rfl, ?_, ?_, ?_⟩
  · simp [Storage.addWorkout, Storage.getWorkouts, Storage.saveWorkouts,
      List.any_append]
  · simp [Storage.addWorkout, Storage.getWorkouts, Storage.saveWorkouts]
  · simp [Storage.addWorkout, Storage.getWorkouts, Storage.saveWorkouts,
      Storage.getTotalMiles, Storage.getWorkoutsByShoe, List.filter_append,
      foldl_add_miles, add_assoc]

/-- Claim C7: `totalMiles` is the sum of `miles` over exactly the
workouts whose `shoeId` matches, is `0` when none match, and adding a
workout for a different shoe leaves it unchanged. -/
theorem getTotalMiles_sum_and_frame (st : StorageState) (a b : String)
    (miles : Rat) (date newId now : String) (hab : a ≠ b) :
    (∀ i, Storage.getTotalMiles st i =
      (((Storage.getWorkouts st).filter (fun w => w.shoeId == i)).map
        (fun w => w.miles)).sum) ∧
    (∀ i, (Storage.getWorkouts st).filter (fun w => w.shoeId == i) = [] →
      Storage.getTotalMiles st i = 0) ∧
    Storage.getTotalMiles (Storage.addWorkout st a miles date newId now).2 b =
      Storage.getTotalMiles st b := by
  refine ⟨?_, ?_, ?_⟩
  · intro i
    simp [Storage.getTotalMiles, Storage.getWorkoutsByShoe, foldl_add_miles]
  · intro i h
    simp [Storage.getTotalMiles, Storage.getWorkoutsByShoe, h]
  · simp [Storage.getTotalMiles, Storage.getWorkoutsByShoe,
      Storage.addWorkout, Storage.getWorkouts, Storage.saveWorkouts,
      List.filter_append, hab]

/-- Witness for C7 at a concrete input: logging three miles on shoe
`"a"` does not change the total of shoe `"b"`. -/
theorem getTotalMiles_sum_and_frame_witness :
    Storage.getTotalMiles
        (Storage.addWorkout emptyState "a" 3 "2024-01-01" "w1" "t1").2 "b" =
      Storage.getTotalMiles emptyState "b" :=
  (getTotalMiles_sum_and_frame emptyState "a" "b" 3 "2024-01-01" "w1" "t1"
    (by decide)).2.2

/-- Mapping ids over a filter on the id commutes with filtering the
mapped ids directly. -/
theorem filter_map_id (l : List Shoe) (p : String → Bool) :
    (l.filter (fun s => p s.id)).map (fun s => s.id) =
      (l.map (fun s => s.id)).filter p := by
  induction l with
  | nil => rfl
  | cons s l ih => by_cases h : p s.id <;> simp [h, ih]

/-- Claim C3: `deleteShoe` returns `false` and leaves the whole state
untouched when any workout references the id; otherwise it returns
`true`, removes the shoe from the shoes collection, removes the id from
the (possibly lazily derived) order, and leaves the workouts alone. -/
theorem deleteShoe_blocked_or_removes (st : StorageState) (id : String) :
    ((∃ w ∈ Storage.getWorkouts st, w.shoeId = id) →
      Storage.deleteShoe st id = (false, st)) ∧
    ((∀ w ∈ Storage.getWorkouts st, w.shoeId ≠ id) →
      (Storage.deleteShoe st id).1 = true ∧
      Storage.getShoes (Storage.deleteShoe st id).2 =
        (Storage.getShoes st).filter (fun s => s.id != id) ∧
      Storage.getShoeOrder (Storage.deleteShoe st id).2 =
        (Storage.getShoeOrder st).filter (fun i => i != id) ∧
      Storage.getWorkouts (Storage.deleteShoe st id).2 =
        Storage.getWorkouts st) := by
  constructor
  · rintro ⟨w, hw, hwid⟩
    have hc : (Storage.getWorkouts st).any (fun w => w.shoeId == id) = true :=
      List.any_eq_true.mpr ⟨w, hw, by simp [hwid]⟩
    simp [Storage.deleteShoe, hc]
  · intro h
    have hc : (Storage.getWorkouts st).any (fun w => w.shoeId == id) = false := by
      rw [List.any_eq_false]
      intro w hw
      simp [h w hw]
    refine ⟨by simp [Storage.deleteShoe, hc], ?_, ?_, ?_⟩
    · simp [Storage.deleteShoe, hc, Storage.getShoes, Storage.saveShoes,
        Storage.saveShoeOrder]
    · simp only [Storage.deleteShoe, hc, Bool.false_eq_true, if_false,
        Storage.getShoeOrder, Storage.saveShoeOrder, Storage.saveShoes]
      cases hso : st.shoeOrder with
      | some o => simp [Storage.getShoeOrder, hso]
      | none =>
        simp [Storage.getShoeOrder, hso, Storage.getShoes,
          filter_map_id _ (fun i => i != id), List.filter_filter]
    · have hp : ¬ ∃ x ∈ st.workouts.getD [], x.shoeId = id := by
        rintro ⟨w, hw, hwid⟩
        exact h w hw hwid
      simp [Storage.deleteShoe, hc, hp, Storage.getWorkouts,
        Storage.saveShoes, Storage.saveShoeOrder]

/-- A state with one shoe `"a"` and one workout referencing it. -/
def busyState : StorageState :=
  ⟨some [⟨"a", "A", false, none, "t1"⟩],
   some [⟨"w1", "a", 3, "2024-01-01", "t2", none⟩], some ["a"]⟩

/-- Witness for C3 at a concrete input: deleting the referenced shoe
`"a"` is refused without mutation, deleting the unreferenced id `"b"`
succeeds. -/
theorem deleteShoe_blocked_or_removes_witness :
    Storage.deleteShoe busyState "a" = (false, busyState) ∧
    (Storage.deleteShoe busyState "b").1 = true :=
  ⟨(deleteShoe_blocked_or_removes busyState "a").1
      ⟨⟨"w1", "a", 3, "2024-01-01", "t2", none⟩, by decide, rfl⟩,
    ((deleteShoe_blocked_or_removes busyState "b").2 (by decide)).1⟩

/-- Decomposition of `updateFirstWorkout`: when some workout has the id,
the list splits around the first such record, and the update rewrites
exactly that record. -/
theorem updateFirstWorkout_decomp (l : List Workout) (id sid : String)
    (m : Rat) (d now : String) (h : ∃ w ∈ l, w.id = id) :
    ∃ pre w post, l = pre ++ w :: post ∧ (∀ u ∈ pre, u.id ≠ id) ∧ w.id = id ∧
      Storage.updateFirstWorkout l id sid m d now =
        pre ++ { w with shoeId := sid, miles := m, date := d
                        updatedAt := some now } :: post := by
  induction l with
  | nil => simp at h
  | cons a l ih =>
    by_cases ha : a.id = id
    · exact ⟨[], a, l, by simp, by simp, ha,
        by simp [Storage.updateFirstWorkout, ha]⟩
    · have h' : ∃ w ∈ l, w.id = id := by
        rcases h with ⟨w, hw, hid⟩
        rcases List.mem_cons.mp hw with rfl | hw'
        · exact absurd hid ha
        · exact ⟨w, hw', hid⟩
      rcases ih h' with ⟨pre, w, post, hl, hpre, hwid, hupd⟩
      refine ⟨a :: pre, w, post, by simp [hl], ?_, hwid, ?_⟩
      · intro u hu
        rcases List.mem_cons.mp hu with rfl | hu'
        · exact ha
        · exact hpre u hu'
      · simp [Storage.updateFirstWorkout, ha, hupd]

/-- Claim C9: `updateWorkout` on an absent id is a no-op that leaves the
whole state (all three collections) unchanged; on a present id it
overwrites `shoeId`, `miles`, `date` and sets `updatedAt` on exactly the
first matching record, leaving every other record and the other
collections untouched. -/
theorem updateWorkout_absent_noop_present_overwrites (st : StorageState)
    (id sid : String) (m : Rat) (d now : String) :
    ((∀ w ∈ Storage.getWorkouts st, w.id ≠ id) →
      Storage.updateWorkout st id sid m d now = st) ∧
    ((∃ w ∈ Storage.getWorkouts st, w.id = id) →
      (Storage.updateWorkout st id sid m d now).shoes = st.shoes ∧
      (Storage.updateWorkout st id sid m d now).shoeOrder = st.shoeOrder ∧
      ∃ pre w post,
        Storage.getWorkouts st = pre ++ w :: post ∧
        (∀ u ∈ pre, u.id ≠ id) ∧ w.id = id ∧
        Storage.getWorkouts (Storage.updateWorkout st id sid m d now) =
          pre ++ { w with shoeId := sid, miles := m, date := d
                          updatedAt := some now } :: post) := by
  constructor
  · intro h
    have hc : (Storage.getWorkouts st).any (fun w => w.id == id) = false := by
      rw [List.any_eq_false]
      intro w hw
      simp [h w hw]
    simp [Storage.updateWorkout, hc]
  · rintro ⟨w, hw, hwid⟩
    have hc : (Storage.getWorkouts st).any (fun w => w.id == id) = true :=
      List.any_eq_true.mpr ⟨w, hw, by simp [hwid]⟩
    refine ⟨by simp [Storage.updateWorkout, hc, Storage.saveWorkouts],
      by simp [Storage.updateWorkout, hc, Storage.saveWorkouts], ?_⟩
    rcases updateFirstWorkout_decomp (Storage.getWorkouts st) id sid m d now
        ⟨w, hw, hwid⟩ with ⟨pre, u, post, hl, hpre, huid, hupd⟩
    have hp : ∃ x ∈ st.workouts.getD [], x.id = id := ⟨w, hw, hwid⟩
    exact ⟨pre, u, post, hl, hpre, huid,
      by simpa [Storage.updateWorkout, hc, hp, Storage.saveWorkouts,
        Storage.getWorkouts] using hupd⟩

/-- A state with a single workout `"w1"`. -/
def oneWorkoutState : StorageState :=
  ⟨none, some [⟨"w1", "a", 3, "2024-01-01", "t1", none⟩], none⟩

/-- Witness for C9 at a concrete input: updating the absent id `"zz"`
leaves the state untouched; updating `"w1"` rewrites that record. -/
theorem updateWorkout_absent_noop_present_overwrites_witness :
    Storage.updateWorkout oneWorkoutState "zz" "b" 5 "2024-02-02" "t9" =
      oneWorkoutState ∧
    (Storage.updateWorkout oneWorkoutState "w1" "b" 5 "2024-02-02" "t9").shoes =
      oneWorkoutState.shoes :=
  ⟨(updateWorkout_absent_noop_present_overwrites oneWorkoutState
      "zz" "b" 5 "2024-02-02" "t9").1 (by decide),
    ((updateWorkout_absent_noop_present_overwrites oneWorkoutState
      "w1" "b" 5 "2024-02-02" "t9").2
        ⟨⟨"w1", "a", 3, "2024-01-01", "t1", none⟩, by decide, rfl⟩).1⟩

/-- Reading back a just-saved shoes collection yields it unchanged. -/
theorem getShoes_saveShoes (st : StorageState) (l : List Shoe) :
    Storage.getShoes (Storage.saveShoes st l) = l := rfl

/-- Saving the order list does not change the shoes read back. -/
theorem getShoes_saveShoeOrder (st : StorageState) (o : List String) :
    Storage.getShoes (Storage.saveShoeOrder st o) = Storage.getShoes st := rfl

/-- `setRetiredFirst` does not change which ids occur in the list. -/
theorem setRetiredFirst_any (l : List Shoe) (id j : String) :
    (Storage.setRetiredFirst l id).any (fun s => s.id == j) =
      l.any (fun s => s.id == j) := by
  induction l with
  | nil => rfl
  | cons s l ih =>
    by_cases h : s.id = id
    · simp [Storage.setRetiredFirst, h]
    · simp [Storage.setRetiredFirst, h, ih]

/-- Retiring the first matching shoe twice is the same as doing it once. -/
theorem setRetiredFirst_idem (l : List Shoe) (id : String) :
    Storage.setRetiredFirst (Storage.setRetiredFirst l id) id =
      Storage.setRetiredFirst l id := by
  induction l with
  | nil => rfl
  | cons s l ih =>
    by_cases h : s.id = id
    · simp [Storage.setRetiredFirst, h]
    · simp [Storage.setRetiredFirst, h, ih]

/-- Every record of `setRetiredFirst l id` is either a record of `l` or a
record of `l` with `retired` set to `true`. -/
theorem setRetiredFirst_mem (l : List Shoe) (id : String) (s' : Shoe)
    (h : s' ∈ Storage.setRetiredFirst l id) :
    s' ∈ l ∨ ∃ s ∈ l, s' = { s with retired := true } := by
  induction l with
  | nil => simp [Storage.setRetiredFirst] at h
  | cons a l ih =>
    by_cases ha : a.id = id
    · have hstep : Storage.setRetiredFirst (a :: l) id =
          { a with retired := true } :: l := by
        simp only [Storage.setRetiredFirst, if_pos (show (a.id == id) = true by
          simp [ha])]
      rw [hstep, List.mem_cons] at h
      rcases h with rfl | h
      · exact Or.inr ⟨a, List.mem_cons_self a l, rfl⟩
      · exact Or.inl (List.mem_cons_of_mem _ h)
    · have hstep : Storage.setRetiredFirst (a :: l) id =
          a :: Storage.setRetiredFirst l id := by
        simp only [Storage.setRetiredFirst,
          if_neg (show ¬ (a.id == id) = true by simp [ha])]
      rw [hstep, List.mem_cons] at h
      rcases h with rfl | h
      · exact Or.inl (List.mem_cons_self _ _)
      · rcases ih h with h' | ⟨s, hs, rfl⟩
        · exact Or.inl (List.mem_cons_of_mem _ h')
        · exact Or.inr ⟨s, List.mem_cons_of_mem _ hs, rfl⟩

/-- Unfolding equation for `retireShoe`. -/
theorem retireShoe_eq (st : StorageState) (id : String) :
    Storage.retireShoe st id =
      if (Storage.getShoes st).any (fun s => s.id == id)
      then Storage.saveShoes st
        (Storage.setRetiredFirst (Storage.getShoes st) id)
      else st := rfl

/-- Claim C8: `retireShoe` is idempotent and a no-op on an absent id, and
retirement is monotonic: after any operation, every shoe carrying an id
whose shoes were all retired beforehand is still retired (for `addShoe`,
provided the freshly generated id is indeed fresh, as `generateId` is
designed to guarantee). -/
theorem retireShoe_idempotent_and_monotonic (op : Storage.Op)
    (st : StorageState) (id i : String) :
    Storage.retireShoe (Storage.retireShoe st id) id =
      Storage.retireShoe st id ∧
    ((∀ s ∈ Storage.getShoes st, s.id ≠ id) →
      Storage.retireShoe st id = st) ∧
    ((∀ s ∈ Storage.getShoes st, s.id = i → s.retired = true) →
      (∀ name img newId now, op = Storage.Op.addShoe name img newId now →
        newId ≠ i) →
      ∀ s' ∈ Storage.getShoes (Storage.apply op st), s'.id = i →
        s'.retired = true) := by
  refine ⟨?_, ?_, ?_⟩
  · by_cases h : (Storage.getShoes st).any (fun s => s.id == id)
    · rw [retireShoe_eq st id, if_pos h, retireShoe_eq, getShoes_saveShoes,
        setRetiredFirst_any, if_pos h, setRetiredFirst_idem]
      rfl
    · rw [retireShoe_eq st id, if_neg h, retireShoe_eq st id, if_neg h]
  · intro h
    have hc : ¬ ((Storage.getShoes st).any (fun s => s.id == id) = true) := by
      intro hx
      rcases List.any_eq_true.mp hx with ⟨s, hs, hsid⟩
      exact h s hs (by simpa using hsid)
    rw [retireShoe_eq st id, if_neg hc]
  · intro hInv hFresh s' hs' hsid
    cases op with
    | addShoe name img newId now =>
      by_cases hdup : ∃ x ∈ Storage.getShoes st,
          Storage.jsToLower x.name = Storage.jsToLower name
      · simp [Storage.apply, Storage.addShoe, hdup] at hs'
        exact hInv s' hs' hsid
      · simp [Storage.apply, Storage.addShoe, hdup, getShoes_saveShoeOrder,
          getShoes_saveShoes] at hs'
        rcases hs' with hs' | rfl
        · exact hInv s' hs' hsid
        · exact absurd hsid (hFresh name img newId now rfl)
    | retireShoe j =>
      by_cases hf : ∃ x ∈ Storage.getShoes st, x.id = j
      · simp [Storage.apply, Storage.retireShoe, hf,
          getShoes_saveShoes] at hs'
        rcases setRetiredFirst_mem _ _ _ hs' with h' | ⟨s, hs, rfl⟩
        · exact hInv s' h' hsid
        · rfl
      · simp [Storage.apply, Storage.retireShoe, hf] at hs'
        exact hInv s' hs' hsid
    | deleteShoe j =>
      by_cases hw : ∃ x ∈ st.workouts.getD [], x.shoeId = j
      · simp [Storage.apply, Storage.deleteShoe, Storage.getWorkouts,
          hw] at hs'
        exact hInv s' hs' hsid
      · simp [Storage.apply, Storage.deleteShoe, Storage.getWorkouts, hw,
          Storage.saveShoeOrder, Storage.saveShoes, Storage.getShoes] at hs'
        exact hInv s' hs'.1 hsid
    | addWorkout a b c d e =>
      exact hInv s' hs' hsid
    | updateWorkout a b c d e =>
      by_cases hup : ∃ x ∈ st.workouts.getD [], x.id = a
      · simp [Storage.apply, Storage.updateWorkout, Storage.getWorkouts,
          hup, Storage.saveWorkouts, Storage.getShoes] at hs'
        exact hInv s' hs' hsid
      · simp [Storage.apply, Storage.updateWorkout, Storage.getWorkouts,
          hup] at hs'
        exact hInv s' hs' hsid
    | deleteWorkout j =>
      exact hInv s' hs' hsid
    | setOrder o =>
      exact hInv s' hs' hsid
    | clearAll =>
      simp [Storage.apply, Storage.clearAll, Storage.getShoes] at hs'

/-- A state holding one already-retired shoe `"a"`. -/
def retiredState : StorageState :=
  ⟨some [⟨"a", "A", true, none, "t"⟩], none, some ["a"]⟩

/-- Witness for C8 at a concrete input: retiring the absent id `"zz"` is
a no-op, and after re-retiring `"a"` the shoe is still retired. -/
theorem retireShoe_idempotent_and_monotonic_witness :
    Storage.retireShoe retiredState "zz" = retiredState ∧
    (⟨"a", "A", true, none, "t"⟩ : Shoe).retired = true :=
  ⟨(retireShoe_idempotent_and_monotonic Storage.Op.clearAll retiredState
      "zz" "a").2.1 (by decide),
   (retireShoe_idempotent_and_monotonic (Storage.Op.retireShoe "a")
      retiredState "zz" "a").2.2 (by decide)
      (fun _ _ _ _ h => Storage.Op.noConfusion h)
      ⟨"a", "A", true, none, "t"⟩ (by decide) rfl⟩

/-- The healing behaviour of the `getShoesOrdered` scan at the level of
ids: each id of the order is kept at its first occurrence, and only when
a shoe with that id is still available; the id is then consumed, so later
duplicates and stale ids contribute nothing. -/
def scanIds : List String → List String → List String
  | [], _ => []
  | i :: rest, avail =>
    if avail.contains i then i :: scanIds rest (avail.filter (fun j => j != i))
    else scanIds rest avail

/-- Building the JS `shoeMap` from shoes with pairwise distinct ids keeps
the shoe list as it is. -/
theorem foldl_insertShoe (l : List Shoe) : ∀ acc : List Shoe,
    (((acc ++ l).map (fun s => s.id)).Nodup) →
    l.foldl Storage.insertShoe acc = acc ++ l := by
  induction l with
  | nil => intro acc _; simp
  | cons s l ih =>
    intro acc h
    have hnotin : ¬ acc.any (fun t => t.id == s.id) = true := by
      intro hx
      rcases List.any_eq_true.mp hx with ⟨t, ht, hts⟩
      have hts' : t.id = s.id := by simpa using hts
      have h1 : s.id ∈ acc.map (fun s => s.id) :=
        hts' ▸ List.mem_map_of_mem _ ht
      have h2 : s.id ∈ (s :: l).map (fun s => s.id) := by simp
      rw [List.map_append, List.nodup_append] at h
      exact h.2.2 h1 h2
    have hins : Storage.insertShoe acc s = acc ++ [s] := by
      simp only [Storage.insertShoe, if_neg hnotin]
    calc (s :: l).foldl Storage.insertShoe acc
        = l.foldl Storage.insertShoe (Storage.insertShoe acc s) := rfl
      _ = l.foldl Storage.insertShoe (acc ++ [s]) := by rw [hins]
      _ = (acc ++ [s]) ++ l := ih (acc ++ [s])
          (by simpa [List.append_assoc] using h)
      _ = acc ++ s :: l := by simp

/-- `mkShoeMap` is the identity on shoe lists with pairwise distinct ids. -/
theorem mkShoeMap_eq (shoes : List Shoe)
    (h : (shoes.map (fun s => s.id)).Nodup) :
    Storage.mkShoeMap shoes = shoes := by
  simpa using foldl_insertShoe shoes [] (by simpa using h)

/-- Removing, from a list of shoes with pairwise distinct ids, every
record with the id of a member `s` is a permutation-inverse of consing
`s` back on. -/
theorem perm_cons_filter (m : List Shoe) (s : Shoe)
    (hnd : (m.map (fun t => t.id)).Nodup) (hs : s ∈ m) :
    m.Perm (s :: m.filter (fun t => t.id != s.id)) := by
  induction m with
  | nil => cases hs
  | cons a m ih =>
    rcases List.mem_cons.mp hs with rfl | hs'
    · have hfl : m.filter (fun t => t.id != s.id) = m := by
        apply List.filter_eq_self.mpr
        intro t ht
        have hne : t.id ≠ s.id := by
          intro he
          rw [List.map_cons, List.nodup_cons] at hnd
          exact hnd.1 (he ▸ List.mem_map_of_mem _ ht)
        simp [hne]
      have hfc : (s :: m).filter (fun t => t.id != s.id) = m := by
        simp [List.filter_cons, hfl]
      rw [hfc]
    · have hane : a.id ≠ s.id := by
        intro he
        rw [List.map_cons, List.nodup_cons] at hnd
        exact hnd.1 (he ▸ List.mem_map_of_mem _ hs')
      have hnd' : (m.map (fun t => t.id)).Nodup := by
        rw [List.map_cons, List.nodup_cons] at hnd
        exact hnd.2
      have hfc : (a :: m).filter (fun t => t.id != s.id) =
          a :: m.filter (fun t => t.id != s.id) := by
        simp [List.filter_cons, hane]
      rw [hfc]
      exact List.Perm.trans (List.Perm.cons a (ih hnd' hs'))
        (List.Perm.swap s a _)

/-- The `getShoesOrdered` scan only rearranges the map: picked and
remaining shoes together are a permutation of the input map. -/
theorem pickOrdered_perm : ∀ (order : List String) (m : List Shoe),
    ((m.map (fun s => s.id)).Nodup) →
    ((Storage.pickOrdered order m).1 ++
      (Storage.pickOrdered order m).2).Perm m := by
  intro order
  induction order with
  | nil => intro m _; simp [Storage.pickOrdered]
  | cons i rest ih =>
    intro m h
    cases hf : m.find? (fun s => s.id == i) with
    | none => simpa [Storage.pickOrdered, hf] using ih m h
    | some s =>
      have hsmem : s ∈ m := List.mem_of_find?_eq_some hf
      have hsid : s.id = i := by simpa using List.find?_some hf
      have hnd' : ((m.filter (fun t => t.id != i)).map
          (fun s => s.id)).Nodup :=
        List.Nodup.sublist (List.Sublist.map _ (List.filter_sublist _)) h
      have ihm := ih (m.filter (fun t => t.id != i)) hnd'
      have hrw : Storage.pickOrdered (i :: rest) m =
          (s :: (Storage.pickOrdered rest
              (m.filter (fun t => t.id != i))).1,
            (Storage.pickOrdered rest
              (m.filter (fun t => t.id != i))).2) := by
        simp [Storage.pickOrdered, hf]
      rw [hrw]
      have h1 : ((s :: (Storage.pickOrdered rest
            (m.filter (fun t => t.id != i))).1) ++
          (Storage.pickOrdered rest
            (m.filter (fun t => t.id != i))).2).Perm
          (s :: m.filter (fun t => t.id != i)) := List.Perm.cons s ihm
      have h2 : (s :: m.filter (fun t => t.id != i)).Perm m := by
        have hp := (perm_cons_filter m s h hsmem).symm
        rwa [hsid] at hp
      exact h1.trans h2

/-- The ids picked by the scan are exactly the `scanIds` of the order
over the available ids, and the remaining map is exactly the shoes whose
id never occurs in the order. -/
theorem pickOrdered_ids : ∀ (order : List String) (m : List Shoe),
    ((m.map (fun s => s.id)).Nodup) →
    ((Storage.pickOrdered order m).1.map (fun s => s.id) =
      scanIds order (m.map (fun s => s.id))) ∧
    (Storage.pickOrdered order m).2 =
      m.filter (fun s => !(order.contains s.id)) := by
  intro order
  induction order with
  | nil =>
    intro m _
    exact ⟨rfl, by simp [Storage.pickOrdered]⟩
  | cons i rest ih =>
    intro m h
    cases hf : m.find? (fun s => s.id == i) with
    | some s =>
      have hsmem : s ∈ m := List.mem_of_find?_eq_some hf
      have hsid : s.id = i := by simpa using List.find?_some hf
      have hnd' : ((m.filter (fun t => t.id != i)).map
          (fun s => s.id)).Nodup :=
        List.Nodup.sublist (List.Sublist.map _ (List.filter_sublist _)) h
      have hmemid : i ∈ m.map (fun s => s.id) :=
        hsid ▸ List.mem_map_of_mem _ hsmem
      have hcont : (m.map (fun s => s.id)).contains i = true := by
        simpa using hmemid
      obtain ⟨ih1, ih2⟩ := ih (m.filter (fun t => t.id != i)) hnd'
      constructor
      · have hrw : (Storage.pickOrdered (i :: rest) m).1 =
            s :: (Storage.pickOrdered rest
              (m.filter (fun t => t.id != i))).1 := by
          simp [Storage.pickOrdered, hf]
        have hmf : (m.filter (fun t => t.id != i)).map (fun s => s.id) =
            (m.map (fun s => s.id)).filter (fun j => j != i) :=
          filter_map_id m (fun j => j != i)
        have hcond : scanIds (i :: rest) (m.map (fun s => s.id)) =
            i :: scanIds rest ((m.map (fun s => s.id)).filter
              (fun j => j != i)) := by
          simp only [scanIds]
          rw [if_pos hcont]
        rw [hrw, List.map_cons, hsid, ih1, hmf, hcond]
      · have hrw : (Storage.pickOrdered (i :: rest) m).2 =
            (Storage.pickOrdered rest
              (m.filter (fun t => t.id != i))).2 := by
          simp [Storage.pickOrdered, hf]
        rw [hrw, ih2, List.filter_filter]
        apply List.filter_congr
        intro t _
        by_cases hti : t.id = i <;> simp [List.contains_cons, hti]
    | none =>
      have hno : ∀ x ∈ m, ¬ ((fun s => s.id == i) x = true) :=
        List.find?_eq_none.mp hf
      have hmemid : i ∉ m.map (fun s => s.id) := by
        intro hx
        rcases List.mem_map.mp hx with ⟨s, hs, hsid⟩
        exact hno s hs (by simp [hsid])
      have hcont : (m.map (fun s => s.id)).contains i = false := by
        simpa using hmemid
      have hrw : Storage.pickOrdered (i :: rest) m =
          Storage.pickOrdered rest m := by
        simp [Storage.pickOrdered, hf]
      obtain ⟨ih1, ih2⟩ := ih m h
      constructor
      · have hcond : scanIds (i :: rest) (m.map (fun s => s.id)) =
            scanIds rest (m.map (fun s => s.id)) := by
          simp only [scanIds]
          rw [if_neg (by intro hx; rw [hcont] at hx; exact Bool.false_ne_true hx)]
        rw [hrw, ih1, hcond]
      · rw [hrw, ih2]
        apply List.filter_congr
        intro t ht
        have htne : t.id ≠ i := by
          intro he
          exact hno t ht (by simp [he])
        simp [List.contains_cons, htne]

/-- Claim C10: on a state whose shoes carry pairwise distinct ids,
`getShoesOrdered` returns each current shoe exactly once — the result is
a permutation of the shoe collection — even when the stored order holds
duplicate ids or ids of shoes that no longer exist: the leading ids are
the first occurrences of order ids that still have a shoe (`scanIds`),
and the shoes whose id never occurs in the order follow at the end in
collection order. -/
theorem getShoesOrdered_each_shoe_exactly_once (st : StorageState)
    (hnodup : ((Storage.getShoes st).map (fun s => s.id)).Nodup) :
    (Storage.getShoesOrdered st).Perm (Storage.getShoes st) ∧
    (Storage.getShoesOrdered st).map (fun s => s.id) =
      scanIds (Storage.getShoeOrder st)
          ((Storage.getShoes st).map (fun s => s.id)) ++
        ((Storage.getShoes st).map (fun s => s.id)).filter
          (fun i => !((Storage.getShoeOrder st).contains i)) := by
  have hmk : Storage.mkShoeMap (Storage.getShoes st) = Storage.getShoes st :=
    mkShoeMap_eq _ hnodup
  have hgo : Storage.getShoesOrdered st =
      (Storage.pickOrdered (Storage.getShoeOrder st)
        (Storage.mkShoeMap (Storage.getShoes st))).1 ++
      (Storage.pickOrdered (Storage.getShoeOrder st)
        (Storage.mkShoeMap (Storage.getShoes st))).2 := rfl
  rw [hgo, hmk]
  obtain ⟨h1, h2⟩ :=
    pickOrdered_ids (Storage.getShoeOrder st) (Storage.getShoes st) hnodup
  refine ⟨pickOrdered_perm _ _ hnodup, ?_⟩
  rw [List.map_append, h1, h2,
    filter_map_id (Storage.getShoes st)
      (fun j => !((Storage.getShoeOrder st).contains j))]

/-- A state with shoes `a`, `b`, `c` and a stored order holding a stale
id and a duplicate. -/
def orderedDemoState : StorageState :=
  ⟨some [⟨"a", "A", false, none, "t"⟩, ⟨"b", "B", false, none, "t"⟩,
         ⟨"c", "C", false, none, "t"⟩], none, some ["b", "x", "b", "c"]⟩

/-- Witness for C10 at a concrete input: a dirty order (stale `"x"`,
duplicate `"b"`, missing `"a"`) still produces each shoe exactly once. -/
theorem getShoesOrdered_each_shoe_exactly_once_witness :
    (Storage.getShoesOrdered orderedDemoState).Perm
      (Storage.getShoes orderedDemoState) ∧
    (Storage.getShoesOrdered orderedDemoState).map (fun s => s.id) =
      scanIds (Storage.getShoeOrder orderedDemoState)
          ((Storage.getShoes orderedDemoState).map (fun s => s.id)) ++
        ((Storage.getShoes orderedDemoState).map (fun s => s.id)).filter
          (fun i => !((Storage.getShoeOrder orderedDemoState).contains i)) :=
  getShoesOrdered_each_shoe_exactly_once orderedDemoState (by decide)
